import Mathlib

/- Formal model of the shock-extraction core of the Historical-Food-Shocks
pipeline: `src/calculate_food_shocks.py` (Savitzky-Golay and Gaussian
detrending of per-country calorie series) and `src/calculate_largest_shock.py`
(selection of the largest calorie-corroborated shock per country).

Numeric cells are modelled as `Option ℚ`: `none` stands for a missing value
(pandas NaN, or the non-finite float produced by a zero division), `some q`
for a finite numeric value.  The numeric kernels of
`scipy.signal.savgol_filter` and `scipy.ndimage.gaussian_filter1d` are
external library code and enter the model as function parameters; the input
validation that `savgol_filter` documents (ValueError unless
polyorder < window_length and window_length ≤ len(x) in the default 'interp'
mode) is modelled explicitly as `SavgolError.filterError`.  Year labels are
modelled as `Nat`. -/

namespace FoodShocks

/-- Log messages: the model of the observable `print` calls of the scripts. -/
inductive LogMsg : Type
  | skipped (country : String)
  | adjustedWindow (country : String) (w : Nat)
  | adjustedSigma (country : String) (s : ℚ)
  | noCalorieDecrease (country : String)
  | notInCalories (country : String)
  deriving DecidableEq, Repr

/-- Error raised while running `calculate_changes_savgol`: `configError` is the
explicit `raise ValueError` of lines 20-21, `filterError` the ValueError raised
inside scipy's `savgol_filter` when its own input validation fails. -/
inductive SavgolError : Type
  | configError
  | filterError
  deriving DecidableEq, Repr

/-- A pandas DataFrame with countries as rows and years as columns. -/
structure Table : Type where
  columns : List Nat
  rows : List (String × List (Option ℚ))
  deriving DecidableEq, Repr

/-- Count of non-missing entries of a row (`len(valid_yields)` after the
`yields.notna()` mask). -/
def validCount (row : List (Option ℚ)) : Nat := (row.filterMap id).length

/-- Largest odd integer at most `n`, for `n ≥ 1`: line 42 of
calculate_food_shocks.py (`len if len % 2 == 1 else len - 1`). -/
def shrinkOdd (n : Nat) : Nat := if n % 2 = 1 then n else n - 1

/-- Pointwise percentage deviation `(actual - smoothed) / smoothed * 100`
(lines 48-49 and 109-112).  A zero baseline produces a non-finite float
(inf or NaN) in the source, propagated into the output; it is modelled as
`none` (undefined, propagated, no exception). -/
def pctDev (a s : ℚ) : Option ℚ := if s = 0 then none else some ((a - s) / s * 100)

/-- The deviation series of paired (actual, smoothed) value lists. -/
def pctList (actual smoothed : List ℚ) : List (Option ℚ) :=
  List.zipWith pctDev actual smoothed

/-- Write the computed deviations back into the row at its non-missing
positions: `pct_changes.loc[country] = pct_change` aligns on the year labels
of `valid_yields`, so missing input positions stay missing in the output. -/
def scatter : List (Option ℚ) → List (Option ℚ) → List (Option ℚ)
  | [], _ => []
  | none :: rest, vs => none :: scatter rest vs
  | some _ :: rest, [] => none :: scatter rest []
  | some _ :: rest, v :: vs => v :: scatter rest vs

/-- One iteration of the country loop of `calculate_changes_savgol`
(lines 27-52).  `sg` abstracts the numeric kernel of
`scipy.signal.savgol_filter`; `st` is the current value of the mutable
`window_length` variable shared across iterations.  Returns the output row,
the new value of `window_length` and the printed messages, or the ValueError
raised inside `savgol_filter` when `polyorder >= window` or (in the default
'interp' mode) `window > len(x)`. -/
def savgolRowStep (sg : List ℚ → Nat → Nat → List ℚ) (polyorder : Nat) (st : Nat)
    (country : String) (row : List (Option ℚ)) :
    Except SavgolError (List (Option ℚ) × Nat × List LogMsg) :=
  let valid := row.filterMap id
  if valid.length ≤ 2 then
    .ok (row.map (fun _ => none), st, [.skipped country])
  else
    let w := if valid.length < st then shrinkOdd valid.length else st
    let logs := if valid.length < st then [LogMsg.adjustedWindow country w] else []
    if polyorder ≥ w ∨ valid.length < w then
      .error .filterError
    else
      .ok (scatter row (pctList valid (sg valid w polyorder)), w, logs)

/-- The country loop of `calculate_changes_savgol`, threading the mutable
`window_length` variable through the iterations and collecting output rows
and printed messages in order. -/
def savgolGo (sg : List ℚ → Nat → Nat → List ℚ) (polyorder : Nat) :
    List (String × List (Option ℚ)) → Nat →
    Except SavgolError (List (String × List (Option ℚ)) × Nat × List LogMsg)
  | [], st => .ok ([], st, [])
  | (c, row) :: rest, st =>
    match savgolRowStep sg polyorder st c row with
    | .error e => .error e
    | .ok (outRow, st1, logs) =>
      match savgolGo sg polyorder rest st1 with
      | .error e => .error e
      | .ok (outRows, st2, logs1) => .ok ((c, outRow) :: outRows, st2, logs ++ logs1)

/-- Model of `calculate_changes_savgol` (calculate_food_shocks.py lines 7-54):
the explicit polyorder check on entry, then the country loop. -/
def calculate_changes_savgol (sg : List ℚ → Nat → Nat → List ℚ) (data : Table)
    (window_length polyorder : Nat) : Except SavgolError (Table × List LogMsg) :=
  if polyorder ≥ window_length then .error .configError
  else
    match savgolGo sg polyorder data.rows window_length with
    | .error e => .error e
    | .ok (outRows, _, logs) => .ok ({ columns := data.columns, rows := outRows }, logs)

/-- Effective sigma for short series (lines 95-98): below 10 valid points the
configured sigma is scaled by `n / 10`, floored at `0.5`. -/
def effectiveSigma (sigma : ℚ) (n : Nat) : ℚ :=
  if n < 10 then max (1 / 2) (sigma * n / 10) else sigma

/-- One iteration of the country loop of `calculate_changes_gaussian`
(lines 80-115); `g` abstracts `scipy.ndimage.gaussian_filter1d` at
`mode='nearest'`.  The sigma adjustment is a fresh local value each
iteration. -/
def gaussRow (g : List ℚ → ℚ → List ℚ) (sigma : ℚ) (country : String)
    (row : List (Option ℚ)) : List (Option ℚ) × List LogMsg :=
  let valid := row.filterMap id
  if valid.length ≤ 2 then
    (row.map (fun _ => none), [.skipped country])
  else
    let eff := effectiveSigma sigma valid.length
    let logs := if valid.length < 10 then [LogMsg.adjustedSigma country eff] else []
    (scatter row (pctList valid (g valid eff)), logs)

/-- The country loop of `calculate_changes_gaussian`. -/
def gaussGo (g : List ℚ → ℚ → List ℚ) (sigma : ℚ) :
    List (String × List (Option ℚ)) → List (String × List (Option ℚ)) × List LogMsg
  | [] => ([], [])
  | (c, row) :: rest =>
    let pr := gaussRow g sigma c row
    let prs := gaussGo g sigma rest
    ((c, pr.1) :: prs.1, pr.2 ++ prs.2)

/-- Model of `calculate_changes_gaussian` (calculate_food_shocks.py
lines 57-117). -/
def calculate_changes_gaussian (g : List ℚ → ℚ → List ℚ) (data : Table) (sigma : ℚ) :
    Table × List LogMsg :=
  let pr := gaussGo g sigma data.rows
  ({ columns := data.columns, rows := pr.1 }, pr.2)

/-- Float comparison `v >= 0` on a possibly-missing value: `NaN >= 0` is
False in Python, so a missing value does not trigger the `break` of line 91. -/
def optGeZero : Option ℚ → Bool
  | some x => decide (0 ≤ x)
  | none => false

/-- Float comparison `a < b` on possibly-missing values: any comparison
against NaN is False. -/
def optLt : Option ℚ → Option ℚ → Bool
  | some a, some b => decide (a < b)
  | _, _ => false

/-- The (year, value) entries of a series holding a numeric value. -/
def someEntries (s : List (Nat × Option ℚ)) : List (Nat × ℚ) :=
  s.filterMap (fun p => p.2.map (fun v => (p.1, v)))

/-- Value order used by `sort_values` (ascending by deviation value). -/
def devLE (a b : Nat × ℚ) : Prop := a.2 ≤ b.2

instance : DecidableRel devLE := fun a b => inferInstanceAs (Decidable (a.2 ≤ b.2))

instance : IsTotal (Nat × ℚ) devLE := ⟨fun a b => le_total a.2 b.2⟩

instance : IsTrans (Nat × ℚ) devLE := ⟨fun _ _ _ h h1 => le_trans h h1⟩

/-- Model of `Series.sort_values()` (line 81): numeric entries ascending by
value, missing entries at the end (`na_position='last'`).  pandas' default
quicksort leaves the relative order of equal values unspecified; the model
fixes a stable order. -/
def seriesSortValues (s : List (Nat × Option ℚ)) : List (Nat × Option ℚ) :=
  (List.insertionSort devLE (someEntries s)).map (fun p => (p.1, some p.2))
    ++ s.filter (fun p => p.2.isNone)

/-- The candidate scan of `calculate_largest_shock` (lines 88-109) over the
sorted deviation series: `break` on `shock_value >= 0`, skip a candidate whose
year is first in the calorie index, accept the first candidate whose calories
strictly decreased year-over-year.  The result `none` models Python's
`largest_valid_shock is None`.  (For a year missing from the calorie index
Python would raise a ValueError from `list.index`; the model skips the
candidate instead — every theorem below uses series over the same years,
where the two behaviours agree.) -/
def shockLoop (cals : List (Nat × Option ℚ)) : List (Nat × Option ℚ) → Option (Nat × Option ℚ)
  | [] => none
  | (year, v) :: rest =>
    if optGeZero v then none
    else
      let yearIdx := (cals.map Prod.fst).indexOf year
      if yearIdx = 0 then shockLoop cals rest
      else
        if optLt ((cals.map Prod.snd).getD yearIdx none)
            ((cals.map Prod.snd).getD (yearIdx - 1) none) then
          some (year, v)
        else shockLoop cals rest

/-- Minimum of a series ignoring missing values (`Series.min()`); `none` when
every value is missing. -/
def seriesMin (s : List (Nat × Option ℚ)) : Option ℚ := (s.filterMap Prod.snd).min?

/-- Model of `Series.isnull().all()`. -/
def allNullSeries (s : List (Nat × Option ℚ)) : Bool := (s.filterMap Prod.snd).isEmpty

/-- Model of `Series.idxmin()`: the year label of the first occurrence of the
minimum, missing values skipped. -/
def seriesIdxmin (s : List (Nat × Option ℚ)) : Option Nat :=
  match seriesMin s with
  | none => none
  | some m => (s.find? (fun p => decide (p.2 = some m))).map Prod.fst

/-- One output record of `calculate_largest_shock` (lines 124-130).  The
`largest_crop_shock` field holds `none` both for Python's `None` and for a
NaN shock value — the two serialise identically to an empty CSV cell. -/
structure ShockRecord : Type where
  country : String
  largest_crop_shock : Option ℚ
  year_of_shock : Option Nat
  deriving DecidableEq, Repr

/-- Per-country body of `calculate_largest_shock` (lines 80-130): the
candidate scan, then — when no candidate was accepted — the uncorroborated
fallback to the minimum deviation and its `idxmin` year, with its printed
note. -/
def largestShockEntity (country : String) (devs cals : List (Nat × Option ℚ)) :
    ShockRecord × List LogMsg :=
  match shockLoop cals (seriesSortValues devs) with
  | some (y, v) =>
    ({ country := country, largest_crop_shock := v, year_of_shock := some y }, [])
  | none =>
    ({ country := country,
       largest_crop_shock := seriesMin devs,
       year_of_shock := if allNullSeries devs then none else seriesIdxmin devs },
     [.noCalorieDecrease country])

/-- Model of the country loop of `calculate_largest_shock` (lines 65-130):
countries absent from the calories table are skipped with a warning, every
other country contributes one record; entries and messages in order. -/
def calculate_largest_shock (devTable : List (String × List (Nat × Option ℚ)))
    (calTable : List (String × List (Nat × Option ℚ))) :
    List ShockRecord × List LogMsg :=
  match devTable with
  | [] => ([], [])
  | (c, devs) :: rest =>
    let tail := calculate_largest_shock rest calTable
    match calTable.find? (fun p => p.1 == c) with
    | none => (tail.1, .notInCalories c :: tail.2)
    | some pr =>
      let hd := largestShockEntity c devs pr.2
      (hd.1 :: tail.1, hd.2 ++ tail.2)

/-- Spec-side (wording of the largest-shock contract): the strictly negative
deviations of a series, in the ascending sort order. -/
def negCandidates (s : List (Nat × Option ℚ)) : List (Nat × ℚ) :=
  (seriesSortValues s).filterMap (fun p =>
    match p.2 with
    | some v => if v < 0 then some (p.1, v) else none
    | none => none)

/-- Spec-side (wording of the largest-shock contract): a candidate year passes
when it is not the first year of the series and its raw calorie value strictly
decreased from the immediately preceding year. -/
def specCandidatePasses (cals : List (Nat × Option ℚ)) (year : Nat) : Bool :=
  let yearIdx := (cals.map Prod.fst).indexOf year
  yearIdx != 0 &&
    optLt ((cals.map Prod.snd).getD yearIdx none) ((cals.map Prod.snd).getD (yearIdx - 1) none)

/-- Spec-side (wording of the largest-shock contract): walk the deviations in
ascending (most-negative-first) order, consider only the strictly negative
ones, and accept the first candidate that passes both checks. -/
def specSelector (devs cals : List (Nat × Option ℚ)) : Option (Nat × ℚ) :=
  (negCandidates devs).find? (fun p => specCandidatePasses cals p.1)

/-- Spec-side (output-alignment contract): an output row is aligned with its
input row when it has the same length, keeps every missing input cell missing,
and is entirely missing when the entity was skipped (at most 2 valid points). -/
def alignedRow (inRow outRow : List (Option ℚ)) : Bool :=
  outRow.length == inRow.length &&
  (List.zip inRow outRow).all (fun p => !p.1.isNone || p.2.isNone) &&
  (decide (2 < validCount inRow) || outRow.all (fun c => c.isNone))

/-- Spec-side (output-alignment contract): the output table has the same
column labels and the same row labels as the input, with every row aligned. -/
def alignedTable (input output : Table) : Bool :=
  (output.columns == input.columns) &&
  (output.rows.map Prod.fst == input.rows.map Prod.fst) &&
  (List.zip input.rows output.rows).all (fun p => alignedRow p.1.2 p.2.2)

/-- Spec-side (window-state bookkeeping): how one iteration of the savgol
country loop updates the shared `window_length` variable. -/
def stepWindow (st : Nat) (row : List (Option ℚ)) : Nat :=
  if validCount row ≤ 2 then st
  else if validCount row < st then shrinkOdd (validCount row) else st

/-- A degenerate smoothing kernel (the identity), used to instantiate theorems
at concrete inputs. -/
def sgId : List ℚ → Nat → Nat → List ℚ := fun xs _ _ => xs

/-- A smoothing kernel whose output records the window it was called with. -/
def sgW : List ℚ → Nat → Nat → List ℚ := fun xs w _ => xs.map (fun x => x + w)

/-- A degenerate Gaussian kernel (the identity), used to instantiate theorems
at concrete inputs. -/
def gId : List ℚ → ℚ → List ℚ := fun xs _ => xs

/-- Concrete input: one country with exactly 3 valid points.  With window 15
and polyorder 3 the window is shrunk to 3, which does not exceed polyorder. -/
def dataC3 : Table := ⟨[1961, 1962, 1963], [("A", [some 1, some 2, some 3])]⟩

/-- Concrete input: country A has 5 valid points (forcing a shrink of the
shared window to 5), country B has 9 valid points. -/
def dataC4 : Table :=
  ⟨[1961, 1962, 1963, 1964, 1965, 1966, 1967, 1968, 1969],
   [("A", List.replicate 5 (some 1) ++ List.replicate 4 none),
    ("B", List.replicate 9 (some 1))]⟩

instance {ε α : Type} [DecidableEq ε] [DecidableEq α] : DecidableEq (Except ε α) :=
  fun x y =>
    match x, y with
    | .error a, .error b =>
      if h : a = b then .isTrue (by rw [h])
      else .isFalse (fun hh => h (by injection hh))
    | .ok a, .ok b =>
      if h : a = b then .isTrue (by rw [h])
      else .isFalse (fun hh => h (by injection hh))
    | .error _, .ok _ => .isFalse (fun hh => Except.noConfusion hh)
    | .ok _, .error _ => .isFalse (fun hh => Except.noConfusion hh)

lemma pctList_getD (a s : List ℚ) (i : Nat) (ha : i < a.length) (hs : i < s.length) :
    (pctList a s).getD i none = pctDev (a.getD i 0) (s.getD i 0) := by
  induction a generalizing s i with
  | nil => simp at ha
  | cons x xs ih =>
    cases s with
    | nil => simp at hs
    | cons y ys =>
      cases i with
      | zero => rfl
      | succ n =>
        simp only [pctList, List.zipWith_cons_cons, List.getD_cons_succ]
        exact ih ys n (by simpa using ha) (by simpa using hs)

/-- C7: for paired actual and smoothed sequences of equal length, the deviation
series has the same length, and the entry at every index i is
`(actual[i] - smoothed[i]) / smoothed[i] * 100`; at a zero smoothed value the
entry is undefined (missing), propagated into the output rather than an
exception being thrown (the calculator is a total function on all inputs). -/
theorem C7_deviation_formula (a s : List ℚ) (hlen : a.length = s.length)
    (i : Nat) (hi : i < a.length) :
    (pctList a s).length = a.length ∧
    (pctList a s).getD i none =
      (if s.getD i 0 = 0 then none
       else some ((a.getD i 0 - s.getD i 0) / s.getD i 0 * 100)) := by
  constructor
  · simp [pctList, List.length_zipWith, hlen]
  · rw [pctList_getD a s i hi (hlen ▸ hi)]
    rfl

/-- Witness for C7 at a concrete input: index 0 of actual [3, 5] against
smoothed [2, 4] gives 50 percent. -/
theorem C7_witness :
    (([(3 : ℚ), 5].length = [(2 : ℚ), 4].length) ∧ 0 < [(3 : ℚ), 5].length) ∧
    ((pctList [3, 5] [2, 4]).length = [(3 : ℚ), 5].length ∧
     (pctList [3, 5] [2, 4]).getD 0 none =
       (if [(2 : ℚ), 4].getD 0 0 = 0 then none
        else some (([(3 : ℚ), 5].getD 0 0 - [(2 : ℚ), 4].getD 0 0) / [(2 : ℚ), 4].getD 0 0 * 100))) :=
  ⟨⟨by decide, by decide⟩, C7_deviation_formula [3, 5] [2, 4] (by decide) 0 (by decide)⟩

lemma gaussGo_rows (g : List ℚ → ℚ → List ℚ) (sigma : ℚ)
    (rows : List (String × List (Option ℚ))) :
    (gaussGo g sigma rows).1 = rows.map (fun cr => (cr.1, (gaussRow g sigma cr.1 cr.2).1)) := by
  induction rows with
  | nil => rfl
  | cons r rest ih =>
    obtain ⟨c, row⟩ := r
    simp [gaussGo, ih]

/-- C10: an entity with more than 2 but fewer than 10 valid points is filtered
with effective sigma `max(0.5, sigma * N / 10)`; an entity with at least 10
valid points uses the configured sigma unchanged; and the output row of each
entity is a function of that entity's input row alone, so one entity's
adjustment cannot affect any other entity. -/
theorem C10_effective_sigma (g : List ℚ → ℚ → List ℚ) (sigma : ℚ) (cols : List Nat)
    (rows : List (String × List (Option ℚ))) (c : String) (row : List (Option ℚ))
    (m : Nat) (h2 : 2 < validCount row) (hlt : validCount row < 10) (hm : 10 ≤ m) :
    effectiveSigma sigma (validCount row) = max (1 / 2) (sigma * (validCount row) / 10) ∧
    effectiveSigma sigma m = sigma ∧
    (gaussRow g sigma c row).1 =
      scatter row (pctList (row.filterMap id)
        (g (row.filterMap id) (effectiveSigma sigma (validCount row)))) ∧
    (calculate_changes_gaussian g ⟨cols, rows⟩ sigma).1.rows =
      rows.map (fun cr => (cr.1, (gaussRow g sigma cr.1 cr.2).1)) := by
  refine ⟨?_, ?_, ?_, ?_⟩
  · simp [effectiveSigma, hlt]
  · simp [effectiveSigma, Nat.not_lt.mpr hm]
  · have hn : ¬ ((row.filterMap id).length ≤ 2) := Nat.not_le.mpr h2
    simp only [gaussRow, hn, if_false, validCount]
  · simpa [calculate_changes_gaussian] using gaussGo_rows g sigma rows

/-- Witness for C10 at a concrete input: 4 valid points scale sigma to
`max(0.5, 3 * 4 / 10) = 6/5`, 12 points would leave it at 3, and the gaussian
table is the rowwise map. -/
theorem C10_witness :
    (2 < validCount [some 1, some 2, none, some 3, some 4] ∧
     validCount [some 1, some 2, none, some 3, some 4] < 10 ∧ 10 ≤ 12) ∧
    (effectiveSigma 3 (validCount [some 1, some 2, none, some 3, some 4]) =
       max (1 / 2 : ℚ) (3 * ((validCount [some 1, some 2, none, some 3, some 4] : ℚ)) / 10) ∧
     effectiveSigma 3 12 = 3 ∧
     (gaussRow gId 3 "A" [some 1, some 2, none, some 3, some 4]).1 =
       scatter [some 1, some 2, none, some 3, some 4]
         (pctList ([some 1, some 2, none, some 3, some 4].filterMap id)
           (gId ([some 1, some 2, none, some 3, some 4].filterMap id)
             (effectiveSigma 3 (validCount [some 1, some 2, none, some 3, some 4])))) ∧
     (calculate_changes_gaussian gId ⟨[1961, 1962], [("A", [some 1, none])]⟩ 3).1.rows =
       [("A", [some 1, none])].map (fun cr => (cr.1, (gaussRow gId 3 cr.1 cr.2).1))) :=
  ⟨⟨by decide, by decide, by decide⟩,
   C10_effective_sigma gId 3 [1961, 1962] [("A", [some 1, none])] "A"
     [some 1, some 2, none, some 3, some 4] 12 (by decide) (by decide) (by decide)⟩

lemma savgolRowStep_ne_configError (sg : List ℚ → Nat → Nat → List ℚ) (p st : Nat)
    (c : String) (row : List (Option ℚ)) :
    savgolRowStep sg p st c row ≠ .error .configError := by
  intro h
  unfold savgolRowStep at h
  dsimp only at h
  split at h
  · exact Except.noConfusion h
  · split at h <;> split at h
    · injection h with h2
      exact SavgolError.noConfusion h2
    · exact Except.noConfusion h
    · injection h with h2
      exact SavgolError.noConfusion h2
    · exact Except.noConfusion h

lemma savgolGo_ne_configError (sg : List ℚ → Nat → Nat → List ℚ) (p : Nat)
    (rows : List (String × List (Option ℚ))) (st : Nat) :
    savgolGo sg p rows st ≠ .error .configError := by
  induction rows generalizing st with
  | nil =>
    intro h
    exact Except.noConfusion h
  | cons r rest ih =>
    obtain ⟨c, row⟩ := r
    intro h
    simp only [savgolGo] at h
    cases hr : savgolRowStep sg p st c row with
    | error e =>
      rw [hr] at h
      dsimp only at h
      injection h with h2
      subst h2
      exact savgolRowStep_ne_configError sg p st c row hr
    | ok v =>
      obtain ⟨outRow, st1, logs⟩ := v
      rw [hr] at h
      dsimp only at h
      cases hrest : savgolGo sg p rest st1 with
      | error e =>
        rw [hrest] at h
        dsimp only at h
        injection h with h2
        subst h2
        exact ih st1 hrest
      | ok w =>
        obtain ⟨outRows, st2, logs1⟩ := w
        rw [hrest] at h
        dsimp only at h
        exact Except.noConfusion h

/-- C3 (amended): the explicit ValueError of calculate_changes_savgol is
raised exactly when polyorder is at least the window_length argument — a check
made once on entry, before any shrinking.  When shrinking later reduces the
effective window to at most polyorder, this explicit check does not fire (the
error then comes from inside the filter call instead). -/
theorem C3_explicit_error_iff (sg : List ℚ → Nat → Nat → List ℚ) (data : Table)
    (window_length polyorder : Nat) :
    calculate_changes_savgol sg data window_length polyorder = .error .configError ↔
      window_length ≤ polyorder := by
  unfold calculate_changes_savgol
  by_cases h : polyorder ≥ window_length
  · simp [h]
  · rw [if_neg h]
    constructor
    · intro hc
      exfalso
      cases hgo : savgolGo sg polyorder data.rows window_length with
      | error e =>
        rw [hgo] at hc
        dsimp only at hc
        injection hc with h2
        subst h2
        exact savgolGo_ne_configError sg polyorder data.rows window_length hgo
      | ok v =>
        obtain ⟨outRows, stF, logs⟩ := v
        rw [hgo] at hc
        dsimp only at hc
        exact Except.noConfusion hc
    · intro hh
      exact absurd hh h

/-- C3 counterexample: with window 15 and polyorder 3, an entity with exactly
3 valid points shrinks the effective window to 3, which does not exceed
polyorder; yet the run does not produce the explicit configuration error — the
failure is the filter's own ValueError. -/
theorem C3_counterexample :
    stepWindow 15 [some 1, some 2, some 3] ≤ 3 ∧
    calculate_changes_savgol sgId dataC3 15 3 = .error .filterError ∧
    calculate_changes_savgol sgId dataC3 15 3 ≠ .error .configError := by
  refine ⟨by decide, by decide, by decide⟩

lemma shrinkOdd_le (n : Nat) : shrinkOdd n ≤ n := by
  unfold shrinkOdd
  split <;> omega

/-- C4 (amended): for an entity with `3 ≤ N` valid points where N is below the
CURRENT value of the mutable window variable (which an earlier entity may
already have shrunk), the step filters the entity with `shrinkOdd N` — the
largest odd integer at most N (odd, at most N, at least N-1) — stores it back
into the shared window variable, and never enlarges the window. -/
theorem C4_window_shrink (sg : List ℚ → Nat → Nat → List ℚ) (p st : Nat) (c : String)
    (row : List (Option ℚ)) (h3 : 3 ≤ validCount row) (hlt : validCount row < st) :
    savgolRowStep sg p st c row =
      (if shrinkOdd (validCount row) ≤ p then .error .filterError
       else .ok (scatter row (pctList (row.filterMap id)
                   (sg (row.filterMap id) (shrinkOdd (validCount row)) p)),
                 shrinkOdd (validCount row),
                 [LogMsg.adjustedWindow c (shrinkOdd (validCount row))])) ∧
    shrinkOdd (validCount row) % 2 = 1 ∧
    shrinkOdd (validCount row) ≤ validCount row ∧
    validCount row ≤ shrinkOdd (validCount row) + 1 ∧
    shrinkOdd (validCount row) < st := by
  refine ⟨?_, ?_, shrinkOdd_le _, ?_, lt_of_le_of_lt (shrinkOdd_le _) hlt⟩
  · unfold savgolRowStep
    simp only [validCount] at h3 hlt ⊢
    have h2 : ¬ ((List.filterMap id row).length ≤ 2) := by omega
    have hno : ¬ ((List.filterMap id row).length < shrinkOdd (List.filterMap id row).length) :=
      Nat.not_lt.mpr (shrinkOdd_le _)
    simp only [if_neg h2, if_pos hlt, eq_false hno, or_false, ge_iff_le]
  · simp only [validCount] at h3 ⊢
    unfold shrinkOdd
    split <;> omega
  · simp only [validCount] at h3 ⊢
    unfold shrinkOdd
    split <;> omega

/-- Witness for C4 at a concrete input: 4 valid points against current window
15 give effective window 3 (odd, at most 4, at least 3, below 15). -/
theorem C4_witness :
    (3 ≤ validCount [some 1, some 2, none, some 3, some 4] ∧
     validCount [some 1, some 2, none, some 3, some 4] < 15) ∧
    (savgolRowStep sgId 1 15 "A" [some 1, some 2, none, some 3, some 4] =
      (if shrinkOdd (validCount [some 1, some 2, none, some 3, some 4]) ≤ 1 then
        .error .filterError
       else .ok (scatter [some 1, some 2, none, some 3, some 4]
                   (pctList ([some 1, some 2, none, some 3, some 4].filterMap id)
                     (sgId ([some 1, some 2, none, some 3, some 4].filterMap id)
                       (shrinkOdd (validCount [some 1, some 2, none, some 3, some 4])) 1)),
                 shrinkOdd (validCount [some 1, some 2, none, some 3, some 4]),
                 [LogMsg.adjustedWindow "A"
                   (shrinkOdd (validCount [some 1, some 2, none, some 3, some 4]))])) ∧
     shrinkOdd (validCount [some 1, some 2, none, some 3, some 4]) % 2 = 1 ∧
     shrinkOdd (validCount [some 1, some 2, none, some 3, some 4]) ≤
       validCount [some 1, some 2, none, some 3, some 4] ∧
     validCount [some 1, some 2, none, some 3, some 4] ≤
       shrinkOdd (validCount [some 1, some 2, none, some 3, some 4]) + 1 ∧
     shrinkOdd (validCount [some 1, some 2, none, some 3, some 4]) < 15) :=
  ⟨⟨by decide, by decide⟩,
   C4_window_shrink sgId 1 15 "A" [some 1, some 2, none, some 3, some 4]
     (by decide) (by decide)⟩

set_option maxRecDepth 10000 in
/-- C4 counterexample: with configured window 15 and polyorder 3, entity B has
N = 9 valid points (3 ≤ 9 < 15), but — because entity A already shrank the
shared window variable to 5 — B's output row is NOT the one obtained by
filtering B with the largest odd integer at most 9 (which would be 9). -/
theorem C4_counterexample :
    calculate_changes_savgol sgW dataC4 15 3 =
      .ok (⟨[1961, 1962, 1963, 1964, 1965, 1966, 1967, 1968, 1969],
            [("A", List.replicate 5 (some (-250 / 3 : ℚ)) ++ List.replicate 4 none),
             ("B", List.replicate 9 (some (-250 / 3 : ℚ)))]⟩,
           [LogMsg.adjustedWindow "A" 5]) ∧
    3 ≤ validCount (List.replicate 9 (some (1 : ℚ))) ∧
    validCount (List.replicate 9 (some (1 : ℚ))) < 15 ∧
    List.replicate 9 (some (-250 / 3 : ℚ)) ≠
      scatter (List.replicate 9 (some (1 : ℚ)))
        (pctList ((List.replicate 9 (some (1 : ℚ))).filterMap id)
          (sgW ((List.replicate 9 (some (1 : ℚ))).filterMap id)
            (shrinkOdd (validCount (List.replicate 9 (some (1 : ℚ))))) 3)) := by
  refine ⟨of_decide_eq_true (by with_unfolding_all rfl), by decide, by decide,
    of_decide_eq_true (by with_unfolding_all rfl)⟩

lemma savgolRowStep_ok_state (sg : List ℚ → Nat → Nat → List ℚ) (p st : Nat) (c : String)
    (row : List (Option ℚ)) (outRow : List (Option ℚ)) (st1 : Nat) (logs : List LogMsg)
    (h : savgolRowStep sg p st c row = .ok (outRow, st1, logs)) :
    st1 = stepWindow st row := by
  unfold savgolRowStep at h
  dsimp only at h
  unfold stepWindow
  simp only [validCount]
  split at h
  · next hc =>
    simp only [Except.ok.injEq, Prod.mk.injEq] at h
    rw [if_pos hc]
    exact h.2.1.symm
  · next hc =>
    rw [if_neg hc]
    split at h
    · next hA =>
      rw [if_pos hA]
      split at h
      · exact Except.noConfusion h
      · simp only [Except.ok.injEq, Prod.mk.injEq] at h
        exact h.2.1.symm
    · next hA =>
      rw [if_neg hA]
      split at h
      · exact Except.noConfusion h
      · simp only [Except.ok.injEq, Prod.mk.injEq] at h
        exact h.2.1.symm

lemma savgolGo_ok_state (sg : List ℚ → Nat → Nat → List ℚ) (p : Nat)
    (rows : List (String × List (Option ℚ))) (st : Nat)
    (o : List (String × List (Option ℚ))) (stF : Nat) (logs : List LogMsg)
    (h : savgolGo sg p rows st = .ok (o, stF, logs)) :
    stF = rows.foldl (fun s cr => stepWindow s cr.2) st := by
  induction rows generalizing st o stF logs with
  | nil =>
    simp only [savgolGo, Except.ok.injEq, Prod.mk.injEq] at h
    simp [← h.2.1]
  | cons r rest ih =>
    obtain ⟨c, row⟩ := r
    simp only [savgolGo] at h
    cases hr : savgolRowStep sg p st c row with
    | error e =>
      rw [hr] at h
      exact Except.noConfusion h
    | ok v =>
      obtain ⟨outRow, st1, logs1⟩ := v
      rw [hr] at h
      dsimp only at h
      cases hrest : savgolGo sg p rest st1 with
      | error e =>
        rw [hrest] at h
        dsimp only at h
        exact Except.noConfusion h
      | ok v2 =>
        obtain ⟨outRows, st2, logs2⟩ := v2
        rw [hrest] at h
        dsimp only at h
        simp only [Except.ok.injEq, Prod.mk.injEq] at h
        have hstep : st1 = stepWindow st row :=
          savgolRowStep_ok_state sg p st c row outRow st1 logs1 hr
        have hrec : st2 = List.foldl (fun s cr => stepWindow s cr.2) st1 rest :=
          ih st1 outRows st2 logs2 hrest
        rw [List.foldl_cons]
        dsimp only
        rw [← hstep, ← h.2.1]
        exact hrec

lemma savgolGo_ok_fst (sg : List ℚ → Nat → Nat → List ℚ) (p : Nat)
    (rows : List (String × List (Option ℚ))) (st : Nat)
    (o : List (String × List (Option ℚ))) (stF : Nat) (logs : List LogMsg)
    (h : savgolGo sg p rows st = .ok (o, stF, logs)) :
    o.map Prod.fst = rows.map Prod.fst := by
  induction rows generalizing st o stF logs with
  | nil =>
    simp only [savgolGo, Except.ok.injEq, Prod.mk.injEq] at h
    simp [← h.1]
  | cons r rest ih =>
    obtain ⟨c, row⟩ := r
    simp only [savgolGo] at h
    cases hr : savgolRowStep sg p st c row with
    | error e =>
      rw [hr] at h
      exact Except.noConfusion h
    | ok v =>
      obtain ⟨outRow, st1, logs1⟩ := v
      rw [hr] at h
      dsimp only at h
      cases hrest : savgolGo sg p rest st1 with
      | error e =>
        rw [hrest] at h
        dsimp only at h
        exact Except.noConfusion h
      | ok v2 =>
        obtain ⟨outRows, st2, logs2⟩ := v2
        rw [hrest] at h
        dsimp only at h
        simp only [Except.ok.injEq, Prod.mk.injEq] at h
        rw [← h.1]
        simp only [List.map_cons]
        rw [ih st1 outRows st2 logs2 hrest]

lemma savgolGo_append (sg : List ℚ → Nat → Nat → List ℚ) (p : Nat)
    (xs ys : List (String × List (Option ℚ))) (st : Nat) :
    savgolGo sg p (xs ++ ys) st =
      match savgolGo sg p xs st with
      | .error e => .error e
      | .ok (outX, st1, logsX) =>
        match savgolGo sg p ys st1 with
        | .error e => .error e
        | .ok (outY, st2, logsY) => .ok (outX ++ outY, st2, logsX ++ logsY) := by
  induction xs generalizing st with
  | nil =>
    simp only [List.nil_append, savgolGo]
    cases h : savgolGo sg p ys st with
    | error e => rfl
    | ok v =>
      obtain ⟨o, s, l⟩ := v
      simp
  | cons r rest ih =>
    obtain ⟨c, row⟩ := r
    simp only [List.cons_append, savgolGo, List.append_eq]
    cases hr : savgolRowStep sg p st c row with
    | error e => rfl
    | ok v =>
      obtain ⟨outRow, st1, logs⟩ := v
      dsimp only
      rw [ih st1]
      cases hrest : savgolGo sg p rest st1 with
      | error e => rfl
      | ok v2 =>
        obtain ⟨o1, s1, l1⟩ := v2
        dsimp only
        cases hys : savgolGo sg p ys s1 with
        | error e => rfl
        | ok v3 =>
          obtain ⟨o2, s2, l2⟩ := v3
          simp

lemma savgolRowStep_noShrink (sg : List ℚ → Nat → Nat → List ℚ) (p st : Nat) (c : String)
    (row : List (Option ℚ)) (h2 : 2 < validCount row) (hge : st ≤ validCount row)
    (hp : p < st) :
    savgolRowStep sg p st c row =
      .ok (scatter row (pctList (row.filterMap id) (sg (row.filterMap id) st p)), st, []) := by
  unfold savgolRowStep
  simp only [validCount] at h2 hge
  have ha : ¬ ((List.filterMap id row).length < st) := Nat.not_lt.mpr hge
  have hb : ¬ (p ≥ st ∨ (List.filterMap id row).length < st) := by omega
  simp only [if_neg (show ¬ ((List.filterMap id row).length ≤ 2) by omega), if_neg ha,
    if_neg hb]

lemma savgolRowStep_noShrink_err (sg : List ℚ → Nat → Nat → List ℚ) (p st : Nat)
    (c : String) (row : List (Option ℚ)) (h2 : 2 < validCount row)
    (hge : st ≤ validCount row) (hp : st ≤ p) :
    savgolRowStep sg p st c row = .error .filterError := by
  unfold savgolRowStep
  simp only [validCount] at h2 hge
  have ha : ¬ ((List.filterMap id row).length < st) := Nat.not_lt.mpr hge
  simp only [if_neg (show ¬ ((List.filterMap id row).length ≤ 2) by omega), if_neg ha,
    if_pos (Or.inl hp)]

lemma getD_append_cons {α : Type} (xs : List α) (x : α) (ys : List α) (d : α) :
    (xs ++ x :: ys).getD xs.length d = x := by
  induction xs with
  | nil => rfl
  | cons a as ih => simpa using ih

/-- C5: the savgol window shrink is not applied per entity.  If the window
state reached after the preceding entities is `st`, already strictly below the
caller's `w`, then an entity with at least `w` valid points — enough for the
caller's original window — is nonetheless filtered with the leaked window
`st`, because the shared `window_length` variable keeps the shrunken value. -/
theorem C5_window_leak (sg : List ℚ → Nat → Nat → List ℚ) (p w : Nat) (cols : List Nat)
    (pre post : List (String × List (Option ℚ))) (c : String) (row : List (Option ℚ))
    (st : Nat) (out : Table) (logs : List LogMsg)
    (hst : pre.foldl (fun s cr => stepWindow s cr.2) w = st)
    (hshrunk : st < w)
    (hbig : w ≤ validCount row)
    (hw : 2 < w)
    (hok : calculate_changes_savgol sg ⟨cols, pre ++ (c, row) :: post⟩ w p = .ok (out, logs)) :
    out.rows.getD pre.length ("", []) =
      (c, scatter row (pctList (row.filterMap id) (sg (row.filterMap id) st p))) := by
  unfold calculate_changes_savgol at hok
  split at hok
  · exact Except.noConfusion hok
  · next hpw =>
    have hp : p < w := Nat.not_le.mp hpw
    cases hgo : savgolGo sg p (pre ++ (c, row) :: post) w with
    | error e =>
      rw [hgo] at hok
      exact Except.noConfusion hok
    | ok v =>
      obtain ⟨rows1, stF, logs1⟩ := v
      rw [hgo] at hok
      dsimp only at hok
      simp only [Except.ok.injEq, Prod.mk.injEq] at hok
      rw [savgolGo_append] at hgo
      cases hpre : savgolGo sg p pre w with
      | error e =>
        rw [hpre] at hgo
        exact Except.noConfusion hgo
      | ok vpre =>
        obtain ⟨oPre, st1, lPre⟩ := vpre
        rw [hpre] at hgo
        dsimp only at hgo
        have hst1 : st1 = st := by
          rw [savgolGo_ok_state sg p pre w oPre st1 lPre hpre, hst]
        subst hst1
        have hstn : st1 ≤ validCount row := le_trans (le_of_lt hshrunk) hbig
        by_cases hpst : p < st1
        · have hrow := savgolRowStep_noShrink sg p st1 c row (by omega) hstn hpst
          have hcons : savgolGo sg p ((c, row) :: post) st1 =
              (match savgolGo sg p post st1 with
               | .error e => .error e
               | .ok (oy, s2, ly) =>
                 .ok ((c, scatter row (pctList (row.filterMap id)
                        (sg (row.filterMap id) st1 p))) :: oy, s2, ly)) := by
            simp only [savgolGo, hrow, List.nil_append]
          rw [hcons] at hgo
          cases hpost : savgolGo sg p post st1 with
          | error e =>
            rw [hpost] at hgo
            dsimp only at hgo
            exact Except.noConfusion hgo
          | ok v3 =>
            obtain ⟨oPost, s3, l3⟩ := v3
            rw [hpost] at hgo
            dsimp only at hgo
            simp only [Except.ok.injEq, Prod.mk.injEq] at hgo
            have hlenPre : oPre.length = pre.length := by
              have := savgolGo_ok_fst sg p pre w oPre st1 lPre hpre
              have h2 := congrArg List.length this
              simpa using h2
            rw [← hok.1]
            dsimp only
            rw [← hgo.1, ← hlenPre]
            exact getD_append_cons oPre _ oPost _
        · exfalso
          have hrow := savgolRowStep_noShrink_err sg p st1 c row (by omega) hstn
            (Nat.not_lt.mp hpst)
          have hcons : savgolGo sg p ((c, row) :: post) st1 = .error .filterError := by
            simp only [savgolGo, hrow, List.nil_append]
          rw [hcons] at hgo
          exact Except.noConfusion hgo

lemma savgolRowStep_skip (sg : List ℚ → Nat → Nat → List ℚ) (p st : Nat) (c : String)
    (row : List (Option ℚ)) (h : validCount row ≤ 2) :
    savgolRowStep sg p st c row = .ok (row.map (fun _ => none), st, [.skipped c]) := by
  unfold savgolRowStep
  simp only [validCount] at h
  rw [if_pos h]

lemma gaussRow_skip (g : List ℚ → ℚ → List ℚ) (sigma : ℚ) (c : String)
    (row : List (Option ℚ)) (h : validCount row ≤ 2) :
    gaussRow g sigma c row = (row.map (fun _ => none), [.skipped c]) := by
  unfold gaussRow
  simp only [validCount] at h
  rw [if_pos h]

lemma gaussGo_append (g : List ℚ → ℚ → List ℚ) (sigma : ℚ)
    (xs ys : List (String × List (Option ℚ))) :
    gaussGo g sigma (xs ++ ys) =
      ((gaussGo g sigma xs).1 ++ (gaussGo g sigma ys).1,
       (gaussGo g sigma xs).2 ++ (gaussGo g sigma ys).2) := by
  induction xs with
  | nil => simp [gaussGo]
  | cons r rest ih =>
    obtain ⟨c, row⟩ := r
    simp [gaussGo, ih]

/-- C6: an entity with at most 2 valid (non-missing) points is skipped
entirely by BOTH smoothing strategies: its output row is wholly missing (no
deviation values emitted), the decision is logged, and — because this holds
for every smoothing kernel `sg` and `g` — no filter is applied to it. -/
theorem C6_skip_short_series (sg : List ℚ → Nat → Nat → List ℚ) (g : List ℚ → ℚ → List ℚ)
    (sigma : ℚ) (p w : Nat) (cols : List Nat)
    (pre post : List (String × List (Option ℚ))) (c : String) (row : List (Option ℚ))
    (out : Table) (logs : List LogMsg)
    (hshort : validCount row ≤ 2)
    (hok : calculate_changes_savgol sg ⟨cols, pre ++ (c, row) :: post⟩ w p = .ok (out, logs)) :
    out.rows.getD pre.length ("", []) = (c, row.map (fun _ => none)) ∧
    LogMsg.skipped c ∈ logs ∧
    (calculate_changes_gaussian g ⟨cols, pre ++ (c, row) :: post⟩ sigma).1.rows.getD
        pre.length ("", []) = (c, row.map (fun _ => none)) ∧
    LogMsg.skipped c ∈ (calculate_changes_gaussian g ⟨cols, pre ++ (c, row) :: post⟩ sigma).2 := by
  unfold calculate_changes_savgol at hok
  split at hok
  · exact Except.noConfusion hok
  · cases hgo : savgolGo sg p (pre ++ (c, row) :: post) w with
    | error e =>
      rw [hgo] at hok
      exact Except.noConfusion hok
    | ok v =>
      obtain ⟨rows1, stF, logs1⟩ := v
      rw [hgo] at hok
      dsimp only at hok
      simp only [Except.ok.injEq, Prod.mk.injEq] at hok
      rw [savgolGo_append] at hgo
      cases hpre : savgolGo sg p pre w with
      | error e =>
        rw [hpre] at hgo
        exact Except.noConfusion hgo
      | ok vpre =>
        obtain ⟨oPre, st1, lPre⟩ := vpre
        rw [hpre] at hgo
        dsimp only at hgo
        have hcons : savgolGo sg p ((c, row) :: post) st1 =
            (match savgolGo sg p post st1 with
             | .error e => .error e
             | .ok (oy, s2, ly) =>
               .ok ((c, row.map (fun _ => none)) :: oy, s2, LogMsg.skipped c :: ly)) := by
          simp only [savgolGo, savgolRowStep_skip sg p st1 c row hshort,
            List.singleton_append]
        rw [hcons] at hgo
        cases hpost : savgolGo sg p post st1 with
        | error e =>
          rw [hpost] at hgo
          dsimp only at hgo
          exact Except.noConfusion hgo
        | ok v3 =>
          obtain ⟨oPost, s3, l3⟩ := v3
          rw [hpost] at hgo
          dsimp only at hgo
          simp only [Except.ok.injEq, Prod.mk.injEq] at hgo
          have hlenPre : oPre.length = pre.length := by
            have h1 := savgolGo_ok_fst sg p pre w oPre st1 lPre hpre
            have h2 := congrArg List.length h1
            simpa using h2
          refine ⟨?_, ?_, ?_, ?_⟩
          · rw [← hok.1]
            dsimp only
            rw [← hgo.1, ← hlenPre]
            exact getD_append_cons oPre _ oPost _
          · rw [← hok.2, ← hgo.2.2]
            simp
          · unfold calculate_changes_gaussian
            dsimp only
            rw [gaussGo_append]
            dsimp only
            have hg1 : (gaussGo g sigma ((c, row) :: post)).1 =
                (c, row.map (fun _ => none)) :: (gaussGo g sigma post).1 := by
              simp [gaussGo, gaussRow_skip g sigma c row hshort]
            rw [hg1]
            have hlg : (gaussGo g sigma pre).1.length = pre.length := by
              rw [gaussGo_rows]
              simp
            rw [← hlg]
            exact getD_append_cons _ _ _ _
          · unfold calculate_changes_gaussian
            dsimp only
            rw [gaussGo_append]
            dsimp only
            have hg2 : (gaussGo g sigma ((c, row) :: post)).2 =
                LogMsg.skipped c :: (gaussGo g sigma post).2 := by
              simp [gaussGo, gaussRow_skip g sigma c row hshort]
            rw [hg2]
            simp

set_option maxRecDepth 10000 in
/-- Witness for C6 at a concrete input: entity B, with one valid point, is
skipped by both strategies while entity A is processed normally. -/
theorem C6_witness :
    validCount [some 1, none, none] ≤ 2 ∧
    calculate_changes_savgol sgId
        ⟨[1961, 1962, 1963],
         [("A", [some 1, some 2, some 3]), ("B", [some 1, none, none])]⟩ 15 1 =
      .ok (⟨[1961, 1962, 1963],
            [("A", [some 0, some 0, some 0]), ("B", [none, none, none])]⟩,
           [LogMsg.adjustedWindow "A" 3, LogMsg.skipped "B"]) ∧
    ((⟨[1961, 1962, 1963],
       [("A", [some 0, some 0, some 0]), ("B", [none, none, none])]⟩ : Table).rows.getD
        1 ("", []) = ("B", ([some 1, none, none] : List (Option ℚ)).map (fun _ => none)) ∧
     LogMsg.skipped "B" ∈ [LogMsg.adjustedWindow "A" 3, LogMsg.skipped "B"] ∧
     (calculate_changes_gaussian gId
        ⟨[1961, 1962, 1963],
         [("A", [some 1, some 2, some 3]), ("B", [some 1, none, none])]⟩ 3).1.rows.getD
        1 ("", []) = ("B", ([some 1, none, none] : List (Option ℚ)).map (fun _ => none)) ∧
     LogMsg.skipped "B" ∈ (calculate_changes_gaussian gId
        ⟨[1961, 1962, 1963],
         [("A", [some 1, some 2, some 3]), ("B", [some 1, none, none])]⟩ 3).2) :=
  ⟨by decide,
   of_decide_eq_true (by with_unfolding_all rfl),
   C6_skip_short_series sgId gId 3 1 15 [1961, 1962, 1963]
     [("A", [some 1, some 2, some 3])] [] "B" [some 1, none, none]
     ⟨[1961, 1962, 1963], [("A", [some 0, some 0, some 0]), ("B", [none, none, none])]⟩
     [LogMsg.adjustedWindow "A" 3, LogMsg.skipped "B"] (by decide)
     (of_decide_eq_true (by with_unfolding_all rfl))⟩

set_option maxRecDepth 10000 in
/-- Witness for C5 at a concrete input: entity A (5 valid points) shrinks the
shared window from 15 to 5; entity B has 15 valid points — enough for the
caller's window — yet is filtered with window 5. -/
theorem C5_witness :
    (List.foldl (fun s cr => stepWindow s cr.2) 15
       [("A", List.replicate 5 (some (1 : ℚ)) ++ List.replicate 10 none)] = 5 ∧
     5 < 15 ∧ 15 ≤ validCount (List.replicate 15 (some (1 : ℚ))) ∧ 2 < 15) ∧
    calculate_changes_savgol sgId
        ⟨[1961, 1962, 1963, 1964, 1965, 1966, 1967, 1968, 1969, 1970, 1971, 1972,
          1973, 1974, 1975],
         [("A", List.replicate 5 (some 1) ++ List.replicate 10 none),
          ("B", List.replicate 15 (some 1))]⟩ 15 3 =
      .ok (⟨[1961, 1962, 1963, 1964, 1965, 1966, 1967, 1968, 1969, 1970, 1971, 1972,
             1973, 1974, 1975],
            [("A", List.replicate 5 (some (0 : ℚ)) ++ List.replicate 10 none),
             ("B", List.replicate 15 (some (0 : ℚ)))]⟩,
           [LogMsg.adjustedWindow "A" 5]) ∧
    (⟨[1961, 1962, 1963, 1964, 1965, 1966, 1967, 1968, 1969, 1970, 1971, 1972,
       1973, 1974, 1975],
      [("A", List.replicate 5 (some (0 : ℚ)) ++ List.replicate 10 none),
       ("B", List.replicate 15 (some (0 : ℚ)))]⟩ : Table).rows.getD 1 ("", []) =
      ("B", scatter (List.replicate 15 (some (1 : ℚ)))
        (pctList ((List.replicate 15 (some (1 : ℚ))).filterMap id)
          (sgId ((List.replicate 15 (some (1 : ℚ))).filterMap id) 5 3))) :=
  ⟨⟨by decide, by decide, by decide, by decide⟩,
   of_decide_eq_true (by with_unfolding_all rfl),
   C5_window_leak sgId 3 15
     [1961, 1962, 1963, 1964, 1965, 1966, 1967, 1968, 1969, 1970, 1971, 1972,
      1973, 1974, 1975]
     [("A", List.replicate 5 (some 1) ++ List.replicate 10 none)] [] "B"
     (List.replicate 15 (some 1)) 5
     ⟨[1961, 1962, 1963, 1964, 1965, 1966, 1967, 1968, 1969, 1970, 1971, 1972,
       1973, 1974, 1975],
      [("A", List.replicate 5 (some (0 : ℚ)) ++ List.replicate 10 none),
       ("B", List.replicate 15 (some (0 : ℚ)))]⟩
     [LogMsg.adjustedWindow "A" 5] (by decide) (by decide) (by decide) (by decide)
     (of_decide_eq_true (by with_unfolding_all rfl))⟩

lemma scatter_length (row vs : List (Option ℚ)) : (scatter row vs).length = row.length := by
  induction row generalizing vs with
  | nil => rfl
  | cons a l ih =>
    cases a with
    | none => simp [scatter, ih]
    | some x =>
      cases vs with
      | nil => simp [scatter, ih]
      | cons v vs2 => simp [scatter, ih]

lemma scatter_mask (row vs : List (Option ℚ)) :
    (List.zip row (scatter row vs)).all (fun p => !p.1.isNone || p.2.isNone) = true := by
  induction row generalizing vs with
  | nil => rfl
  | cons a l ih =>
    cases a with
    | none => simpa [scatter] using ih vs
    | some x =>
      cases vs with
      | nil => simpa [scatter] using ih []
      | cons v vs2 => simpa [scatter] using ih vs2

lemma allNone_mask (row : List (Option ℚ)) :
    (List.zip row (row.map (fun _ => (none : Option ℚ)))).all
      (fun p => !p.1.isNone || p.2.isNone) = true := by
  induction row with
  | nil => rfl
  | cons a l ih => simpa using ih

lemma alignedRow_allNone (row : List (Option ℚ)) :
    alignedRow row (row.map (fun _ => none)) = true := by
  unfold alignedRow
  rw [allNone_mask]
  simp [List.all_eq_true]

lemma alignedRow_scatter (row vs : List (Option ℚ)) (h : 2 < validCount row) :
    alignedRow row (scatter row vs) = true := by
  unfold alignedRow
  rw [scatter_mask, scatter_length]
  simp [h]

lemma savgolRowStep_ok_aligned (sg : List ℚ → Nat → Nat → List ℚ) (p st : Nat)
    (c : String) (row outRow : List (Option ℚ)) (st1 : Nat) (logs : List LogMsg)
    (h : savgolRowStep sg p st c row = .ok (outRow, st1, logs)) :
    alignedRow row outRow = true := by
  unfold savgolRowStep at h
  dsimp only at h
  split at h
  · simp only [Except.ok.injEq, Prod.mk.injEq] at h
    rw [← h.1]
    exact alignedRow_allNone row
  · next hc =>
    split at h <;> split at h
    · exact Except.noConfusion h
    · simp only [Except.ok.injEq, Prod.mk.injEq] at h
      rw [← h.1]
      exact alignedRow_scatter row _ (by simp only [validCount]; omega)
    · exact Except.noConfusion h
    · simp only [Except.ok.injEq, Prod.mk.injEq] at h
      rw [← h.1]
      exact alignedRow_scatter row _ (by simp only [validCount]; omega)

lemma savgolGo_ok_aligned (sg : List ℚ → Nat → Nat → List ℚ) (p : Nat)
    (rows : List (String × List (Option ℚ))) (st : Nat)
    (o : List (String × List (Option ℚ))) (stF : Nat) (logs : List LogMsg)
    (h : savgolGo sg p rows st = .ok (o, stF, logs)) :
    (List.zip rows o).all (fun pr => alignedRow pr.1.2 pr.2.2) = true := by
  induction rows generalizing st o stF logs with
  | nil =>
    simp only [savgolGo, Except.ok.injEq, Prod.mk.injEq] at h
    rw [← h.1]
    rfl
  | cons r rest ih =>
    obtain ⟨c, row⟩ := r
    simp only [savgolGo] at h
    cases hr : savgolRowStep sg p st c row with
    | error e =>
      rw [hr] at h
      exact Except.noConfusion h
    | ok v =>
      obtain ⟨outRow, st1, logs1⟩ := v
      rw [hr] at h
      dsimp only at h
      cases hrest : savgolGo sg p rest st1 with
      | error e =>
        rw [hrest] at h
        dsimp only at h
        exact Except.noConfusion h
      | ok v2 =>
        obtain ⟨outRows, st2, logs2⟩ := v2
        rw [hrest] at h
        dsimp only at h
        simp only [Except.ok.injEq, Prod.mk.injEq] at h
        rw [← h.1]
        simp only [List.zip_cons_cons, List.all_cons, Bool.and_eq_true]
        exact ⟨savgolRowStep_ok_aligned sg p st c row outRow st1 logs1 hr,
               ih st1 outRows st2 logs2 hrest⟩

lemma gaussRow_aligned (g : List ℚ → ℚ → List ℚ) (sigma : ℚ) (c : String)
    (row : List (Option ℚ)) :
    alignedRow row (gaussRow g sigma c row).1 = true := by
  unfold gaussRow
  dsimp only
  split
  · exact alignedRow_allNone row
  · next hc =>
    exact alignedRow_scatter row _ (by simp only [validCount]; omega)

lemma gaussGo_aligned (g : List ℚ → ℚ → List ℚ) (sigma : ℚ)
    (rows : List (String × List (Option ℚ))) :
    (List.zip rows (gaussGo g sigma rows).1).all
      (fun pr => alignedRow pr.1.2 pr.2.2) = true := by
  induction rows with
  | nil => rfl
  | cons r rest ih =>
    obtain ⟨c, row⟩ := r
    simp only [gaussGo, List.zip_cons_cons, List.all_cons, Bool.and_eq_true]
    exact ⟨gaussRow_aligned g sigma c row, ih⟩

lemma gaussGo_fst (g : List ℚ → ℚ → List ℚ) (sigma : ℚ)
    (rows : List (String × List (Option ℚ))) :
    (gaussGo g sigma rows).1.map Prod.fst = rows.map Prod.fst := by
  rw [gaussGo_rows]
  simp

/-- C9: for every input table, a successful savgol run and the gaussian run
both produce a table with exactly the same row labels and column labels as the
input, in which every missing input cell stays missing and every skipped
entity's row is wholly missing — absent, not zero. -/
theorem C9_alignment (sg : List ℚ → Nat → Nat → List ℚ) (g : List ℚ → ℚ → List ℚ)
    (sigma : ℚ) (w p : Nat) (data : Table) (out : Table) (logs : List LogMsg)
    (hok : calculate_changes_savgol sg data w p = .ok (out, logs)) :
    alignedTable data out = true ∧
    alignedTable data (calculate_changes_gaussian g data sigma).1 = true := by
  constructor
  · unfold calculate_changes_savgol at hok
    split at hok
    · exact Except.noConfusion hok
    · cases hgo : savgolGo sg p data.rows w with
      | error e =>
        rw [hgo] at hok
        exact Except.noConfusion hok
      | ok v =>
        obtain ⟨rows1, stF, logs1⟩ := v
        rw [hgo] at hok
        dsimp only at hok
        simp only [Except.ok.injEq, Prod.mk.injEq] at hok
        rw [← hok.1]
        unfold alignedTable
        dsimp only
        rw [savgolGo_ok_aligned sg p data.rows w rows1 stF logs1 hgo]
        rw [savgolGo_ok_fst sg p data.rows w rows1 stF logs1 hgo]
        simp
  · unfold calculate_changes_gaussian alignedTable
    dsimp only
    rw [gaussGo_aligned, gaussGo_fst]
    simp

set_option maxRecDepth 10000 in
/-- Witness for C9 at a concrete input with a short entity, a missing cell and
a processed entity. -/
theorem C9_witness :
    calculate_changes_savgol sgId
        ⟨[1961, 1962, 1963],
         [("A", [some 1, some 2, some 3]), ("B", [some 1, none, none])]⟩ 15 1 =
      .ok (⟨[1961, 1962, 1963],
            [("A", [some 0, some 0, some 0]), ("B", [none, none, none])]⟩,
           [LogMsg.adjustedWindow "A" 3, LogMsg.skipped "B"]) ∧
    (alignedTable
        ⟨[1961, 1962, 1963],
         [("A", [some 1, some 2, some 3]), ("B", [some 1, none, none])]⟩
        ⟨[1961, 1962, 1963],
         [("A", [some 0, some 0, some 0]), ("B", [none, none, none])]⟩ = true ∧
     alignedTable
        ⟨[1961, 1962, 1963],
         [("A", [some 1, some 2, some 3]), ("B", [some 1, none, none])]⟩
        (calculate_changes_gaussian gId
          ⟨[1961, 1962, 1963],
           [("A", [some 1, some 2, some 3]), ("B", [some 1, none, none])]⟩ 3).1 = true) :=
  ⟨of_decide_eq_true (by with_unfolding_all rfl),
   C9_alignment sgId gId 3 15 1
     ⟨[1961, 1962, 1963], [("A", [some 1, some 2, some 3]), ("B", [some 1, none, none])]⟩
     ⟨[1961, 1962, 1963], [("A", [some 0, some 0, some 0]), ("B", [none, none, none])]⟩
     [LogMsg.adjustedWindow "A" 3, LogMsg.skipped "B"]
     (of_decide_eq_true (by with_unfolding_all rfl))⟩

lemma shockLoop_spec_found (cals : List (Nat × Option ℚ)) (A : List (Nat × ℚ))
    (B : List (Nat × Option ℚ)) (hA : A.Pairwise devLE) (y : Nat) (v : ℚ)
    (hfind : ((A.filterMap (fun p => if p.2 < 0 then some p else none)).find?
        (fun p => specCandidatePasses cals p.1)) = some (y, v)) :
    shockLoop cals (A.map (fun p => (p.1, some p.2)) ++ B) = some (y, some v) := by
  induction A with
  | nil => simp at hfind
  | cons a A ih =>
    obtain ⟨y0, v0⟩ := a
    rw [List.pairwise_cons] at hA
    obtain ⟨hbnd, hA2⟩ := hA
    by_cases hneg : v0 < 0
    · rw [List.filterMap_cons] at hfind
      try dsimp only at hfind
      rw [if_pos hneg, List.find?_cons] at hfind
      simp only [List.map_cons, List.cons_append, shockLoop]
      rw [if_neg (show ¬ (optGeZero (some v0) = true) by
        simp [optGeZero, not_le.mpr hneg])]
      try dsimp only
      cases hpass : specCandidatePasses cals y0 with
      | true =>
        rw [hpass] at hfind
        try dsimp only at hfind
        injection hfind with h2
        have hy : y0 = y := congrArg Prod.fst h2
        have hv : v0 = v := congrArg Prod.snd h2
        unfold specCandidatePasses at hpass
        simp only [Bool.and_eq_true, bne_iff_ne, ne_eq] at hpass
        rw [if_neg hpass.1, if_pos hpass.2, hy, hv]
      | false =>
        rw [hpass] at hfind
        try dsimp only at hfind
        unfold specCandidatePasses at hpass
        try dsimp only at hpass
        by_cases h0 : (cals.map Prod.fst).indexOf y0 = 0
        · rw [if_pos h0]
          exact ih hA2 hfind
        · rw [if_neg h0]
          have hfalse : optLt ((cals.map Prod.snd).getD ((cals.map Prod.fst).indexOf y0) none)
              ((cals.map Prod.snd).getD ((cals.map Prod.fst).indexOf y0 - 1) none) = false := by
            rcases Bool.and_eq_false_iff.mp hpass with h | h
            · have hb := bne_iff_ne.mpr h0
              rw [h] at hb
              exact Bool.noConfusion hb
            · exact h
          rw [if_neg (by rw [hfalse]; exact Bool.false_ne_true)]
          exact ih hA2 hfind
    · exfalso
      have hall : ∀ p ∈ (y0, v0) :: A,
          (if p.2 < 0 then some p else (none : Option (Nat × ℚ))) = none := by
        intro p hp
        rcases List.mem_cons.mp hp with h | h
        · rw [h]
          exact if_neg hneg
        · have hb := hbnd p h
          unfold devLE at hb
          exact if_neg (by try dsimp only at hb; linarith)
      rw [List.filterMap_eq_nil_iff.mpr hall] at hfind
      simp at hfind

lemma negCandidates_eq (devs : List (Nat × Option ℚ)) :
    negCandidates devs =
      (List.insertionSort devLE (someEntries devs)).filterMap
        (fun p => if p.2 < 0 then some p else none) := by
  unfold negCandidates seriesSortValues
  rw [List.filterMap_append, List.filterMap_map]
  have h2 : (devs.filter (fun p => p.2.isNone)).filterMap
      (fun p => match p.2 with
        | some v => if v < 0 then some (p.1, v) else none
        | none => none) = [] := by
    rw [List.filterMap_eq_nil_iff]
    intro p hp
    have hn := (List.mem_filter.mp hp).2
    rw [Option.isNone_iff_eq_none] at hn
    rw [hn]
  rw [h2, List.append_nil]
  apply List.filterMap_congr
  intro p _
  dsimp only [Function.comp]

/-- C1: whenever the claimed selection — walk the deviation values in
ascending (most-negative-first) order, consider only strictly negative
deviations, skip a candidate that is the first year of the series or whose
raw calorie value did not strictly decrease from the preceding year, accept
the first candidate passing both checks — finds a candidate, the selector of
calculate_largest_shock returns exactly that candidate's year and value. -/
theorem C1_first_passing_candidate (c : String) (devs cals : List (Nat × Option ℚ))
    (_hyears : devs.map Prod.fst = cals.map Prod.fst) (y : Nat) (v : ℚ)
    (hsel : specSelector devs cals = some (y, v)) :
    largestShockEntity c devs cals =
      ({ country := c, largest_crop_shock := some v, year_of_shock := some y }, []) := by
  have hfind : ((List.insertionSort devLE (someEntries devs)).filterMap
      (fun p => if p.2 < 0 then some p else none)).find?
      (fun p => specCandidatePasses cals p.1) = some (y, v) := by
    rw [← negCandidates_eq devs]
    exact hsel
  have hsorted : (List.insertionSort devLE (someEntries devs)).Pairwise devLE :=
    List.sorted_insertionSort devLE (someEntries devs)
  have hloop : shockLoop cals (seriesSortValues devs) = some (y, some v) := by
    unfold seriesSortValues
    exact shockLoop_spec_found cals _ _ hsorted y v hfind
  unfold largestShockEntity
  rw [hloop]

set_option maxRecDepth 20000 in
/-- Witness for C1 at a concrete input: the most negative deviation (1962,
with a raw decrease from 100 to 90) is selected. -/
theorem C1_witness :
    ([((1961 : Nat), some (-1 : ℚ)), (1962, some (-5)), (1963, some 2)].map Prod.fst =
       [((1961 : Nat), some (100 : ℚ)), (1962, some 90), (1963, some 95)].map Prod.fst ∧
     specSelector [((1961 : Nat), some (-1 : ℚ)), (1962, some (-5)), (1963, some 2)]
       [((1961 : Nat), some (100 : ℚ)), (1962, some 90), (1963, some 95)] =
       some (1962, -5)) ∧
    largestShockEntity "France"
        [((1961 : Nat), some (-1 : ℚ)), (1962, some (-5)), (1963, some 2)]
        [((1961 : Nat), some (100 : ℚ)), (1962, some 90), (1963, some 95)] =
      ({ country := "France", largest_crop_shock := some (-5), year_of_shock := some 1962 },
       []) :=
  ⟨⟨by decide, of_decide_eq_true (by with_unfolding_all rfl)⟩,
   C1_first_passing_candidate "France" _ _ (by decide) 1962 (-5)
     (of_decide_eq_true (by with_unfolding_all rfl))⟩

lemma shockLoop_spec_none (cals : List (Nat × Option ℚ)) (A : List (Nat × ℚ))
    (hA : A.Pairwise devLE)
    (hfind : ((A.filterMap (fun p => if p.2 < 0 then some p else none)).find?
        (fun p => specCandidatePasses cals p.1)) = none) :
    shockLoop cals (A.map (fun p => (p.1, some p.2))) = none := by
  induction A with
  | nil => rfl
  | cons a A ih =>
    obtain ⟨y0, v0⟩ := a
    rw [List.pairwise_cons] at hA
    obtain ⟨hbnd, hA2⟩ := hA
    by_cases hneg : v0 < 0
    · rw [List.filterMap_cons] at hfind
      try dsimp only at hfind
      rw [if_pos hneg, List.find?_cons] at hfind
      simp only [List.map_cons, shockLoop]
      rw [if_neg (show ¬ (optGeZero (some v0) = true) by
        simp [optGeZero, not_le.mpr hneg])]
      try dsimp only
      cases hpass : specCandidatePasses cals y0 with
      | true =>
        rw [hpass] at hfind
        try dsimp only at hfind
        exact Option.noConfusion hfind
      | false =>
        rw [hpass] at hfind
        try dsimp only at hfind
        unfold specCandidatePasses at hpass
        try dsimp only at hpass
        by_cases h0 : (cals.map Prod.fst).indexOf y0 = 0
        · rw [if_pos h0]
          exact ih hA2 hfind
        · rw [if_neg h0]
          have hfalse : optLt ((cals.map Prod.snd).getD ((cals.map Prod.fst).indexOf y0) none)
              ((cals.map Prod.snd).getD ((cals.map Prod.fst).indexOf y0 - 1) none) = false := by
            rcases Bool.and_eq_false_iff.mp hpass with h | h
            · have hb := bne_iff_ne.mpr h0
              rw [h] at hb
              exact Bool.noConfusion hb
            · exact h
          rw [if_neg (by rw [hfalse]; exact Bool.false_ne_true)]
          exact ih hA2 hfind
    · simp only [List.map_cons, shockLoop]
      rw [if_pos (show optGeZero (some v0) = true by
        simp [optGeZero, not_lt.mp hneg])]

lemma allNull_false_of_clean (devs : List (Nat × Option ℚ))
    (hclean : ∀ p ∈ devs, p.2 ≠ none) (hne : devs ≠ []) :
    allNullSeries devs = false := by
  unfold allNullSeries
  cases devs with
  | nil => exact absurd rfl hne
  | cons p rest =>
    cases hp : p.2 with
    | none => exact absurd hp (hclean p (by simp))
    | some x => simp [List.filterMap_cons, hp]

/-- C2 (amended): for an entity whose deviation series has no missing values,
when no strictly negative deviation is corroborated by a year-over-year raw
calorie decrease (including the case of no negative deviation at all), the
selector falls back to the unconditional minimum deviation with its idxmin
year, and the record is emitted together with the uncorroborated note rather
than the entity being omitted. -/
theorem C2_fallback_uncorroborated (c : String) (devs cals : List (Nat × Option ℚ))
    (_hyears : devs.map Prod.fst = cals.map Prod.fst)
    (hclean : ∀ p ∈ devs, p.2 ≠ none) (hne : devs ≠ [])
    (hsel : specSelector devs cals = none) :
    largestShockEntity c devs cals =
      ({ country := c, largest_crop_shock := seriesMin devs,
         year_of_shock := seriesIdxmin devs }, [LogMsg.noCalorieDecrease c]) := by
  have hBnil : devs.filter (fun p => p.2.isNone) = [] := by
    rw [List.filter_eq_nil_iff]
    intro p hp
    cases hh : p.2 with
    | none => exact absurd hh (hclean p hp)
    | some x => simp [hh]
  have hfind : ((List.insertionSort devLE (someEntries devs)).filterMap
      (fun p => if p.2 < 0 then some p else none)).find?
      (fun p => specCandidatePasses cals p.1) = none := by
    rw [← negCandidates_eq devs]
    exact hsel
  have hloop : shockLoop cals (seriesSortValues devs) = none := by
    unfold seriesSortValues
    rw [hBnil, List.append_nil]
    exact shockLoop_spec_none cals _ (List.sorted_insertionSort devLE _) hfind
  unfold largestShockEntity
  rw [hloop, allNull_false_of_clean devs hclean hne]
  simp

set_option maxRecDepth 20000 in
/-- Witness for C2 at a concrete input: the only negative deviation sits at
the first year, so nothing is corroborated and the fallback record (minimum
deviation −5 at 1961) is emitted with the note. -/
theorem C2_witness :
    ([((1961 : Nat), some (-5 : ℚ)), (1962, some 3)].map Prod.fst =
       [((1961 : Nat), some (100 : ℚ)), (1962, some 200)].map Prod.fst ∧
     (∀ p ∈ [((1961 : Nat), some (-5 : ℚ)), (1962, some 3)], p.2 ≠ none) ∧
     [((1961 : Nat), some (-5 : ℚ)), (1962, some 3)] ≠ [] ∧
     specSelector [((1961 : Nat), some (-5 : ℚ)), (1962, some 3)]
       [((1961 : Nat), some (100 : ℚ)), (1962, some 200)] = none) ∧
    largestShockEntity "X" [((1961 : Nat), some (-5 : ℚ)), (1962, some 3)]
        [((1961 : Nat), some (100 : ℚ)), (1962, some 200)] =
      ({ country := "X",
         largest_crop_shock := seriesMin [((1961 : Nat), some (-5 : ℚ)), (1962, some 3)],
         year_of_shock := seriesIdxmin [((1961 : Nat), some (-5 : ℚ)), (1962, some 3)] },
       [LogMsg.noCalorieDecrease "X"]) :=
  ⟨⟨by decide, of_decide_eq_true (by with_unfolding_all rfl), by decide,
    of_decide_eq_true (by with_unfolding_all rfl)⟩,
   C2_fallback_uncorroborated "X" _ _ (by decide)
     (of_decide_eq_true (by with_unfolding_all rfl)) (by decide)
     (of_decide_eq_true (by with_unfolding_all rfl))⟩

set_option maxRecDepth 20000 in
/-- C2 counterexample: the deviation series [(1961, −5), (1962, NaN)] has no
corroborated negative candidate (1961 is the first year), so the claim
requires the flagged fallback record (min −5 at 1961); but with calories
falling 100 → 90 into 1962 the code accepts the MISSING deviation at 1962 as
the shock — `NaN >= 0` is false, so the sorted-last NaN is still scanned —
and emits (NaN, 1962) with no note. -/
theorem C2_counterexample :
    specSelector [((1961 : Nat), some (-5 : ℚ)), (1962, none)]
        [((1961 : Nat), some (100 : ℚ)), (1962, some 90)] = none ∧
    largestShockEntity "X" [((1961 : Nat), some (-5 : ℚ)), (1962, none)]
        [((1961 : Nat), some (100 : ℚ)), (1962, some 90)] =
      ({ country := "X", largest_crop_shock := none, year_of_shock := some 1962 }, []) ∧
    largestShockEntity "X" [((1961 : Nat), some (-5 : ℚ)), (1962, none)]
        [((1961 : Nat), some (100 : ℚ)), (1962, some 90)] ≠
      ({ country := "X",
         largest_crop_shock := seriesMin [((1961 : Nat), some (-5 : ℚ)), (1962, none)],
         year_of_shock := seriesIdxmin [((1961 : Nat), some (-5 : ℚ)), (1962, none)] },
       [LogMsg.noCalorieDecrease "X"]) :=
  ⟨of_decide_eq_true (by with_unfolding_all rfl),
   of_decide_eq_true (by with_unfolding_all rfl),
   of_decide_eq_true (by with_unfolding_all rfl)⟩

lemma shockLoop_allNone (cals : List (Nat × Option ℚ)) (L : List (Nat × Option ℚ))
    (hall : ∀ p ∈ L, p.2 = none)
    (hnodec : ∀ i : Nat, optLt ((cals.map Prod.snd).getD (i + 1) none)
        ((cals.map Prod.snd).getD i none) = false) :
    shockLoop cals L = none := by
  induction L with
  | nil => rfl
  | cons p L ih =>
    obtain ⟨y, v⟩ := p
    have hv : v = none := hall (y, v) (by simp)
    subst hv
    simp only [shockLoop]
    rw [if_neg (show ¬ (optGeZero none = true) from Bool.noConfusion)]
    try dsimp only
    by_cases h0 : (cals.map Prod.fst).indexOf y = 0
    · rw [if_pos h0]
      exact ih (fun q hq => hall q (List.mem_cons_of_mem _ hq))
    · rw [if_neg h0]
      have hd := hnodec ((cals.map Prod.fst).indexOf y - 1)
      rw [Nat.sub_add_cancel (Nat.one_le_iff_ne_zero.mpr h0)] at hd
      rw [if_neg (by rw [hd]; exact Bool.false_ne_true)]
      exact ih (fun q hq => hall q (List.mem_cons_of_mem _ hq))

/-- C8 (amended): for an entity whose deviation series is entirely missing AND
whose calorie series shows no strict year-over-year decrease, the selector
produces a record with missing shock magnitude and null year_of_shock, does
not raise (the model is a total function), and the batch goes on to process
the remaining entities unchanged.  (Without the calorie condition the code
can accept a missing deviation as the shock and record its year — see the
counterexample.) -/
theorem C8_all_missing_null_record (c : String) (devs cals : List (Nat × Option ℚ))
    (rest calT : List (String × List (Nat × Option ℚ)))
    (_hyears : devs.map Prod.fst = cals.map Prod.fst)
    (hfind : calT.find? (fun p => p.1 == c) = some (c, cals))
    (hall : ∀ p ∈ devs, p.2 = none)
    (hnodec : ∀ i : Nat, optLt ((cals.map Prod.snd).getD (i + 1) none)
        ((cals.map Prod.snd).getD i none) = false) :
    largestShockEntity c devs cals =
      ({ country := c, largest_crop_shock := none, year_of_shock := none },
       [LogMsg.noCalorieDecrease c]) ∧
    calculate_largest_shock ((c, devs) :: rest) calT =
      (({ country := c, largest_crop_shock := none, year_of_shock := none } : ShockRecord) ::
         (calculate_largest_shock rest calT).1,
       LogMsg.noCalorieDecrease c :: (calculate_largest_shock rest calT).2) := by
  have hfm : devs.filterMap Prod.snd = [] := by
    rw [List.filterMap_eq_nil_iff]
    intro p hp
    exact hall p hp
  have hsomeE : someEntries devs = [] := by
    rw [someEntries, List.filterMap_eq_nil_iff]
    intro p hp
    rw [hall p hp]
    rfl
  have hallSorted : ∀ p ∈ seriesSortValues devs, p.2 = none := by
    intro p hp
    unfold seriesSortValues at hp
    rw [hsomeE] at hp
    simp only [List.insertionSort, List.map_nil, List.nil_append] at hp
    exact hall p (List.mem_of_mem_filter hp)
  have hloop : shockLoop cals (seriesSortValues devs) = none :=
    shockLoop_allNone cals _ hallSorted hnodec
  have hmin : seriesMin devs = none := by
    unfold seriesMin
    rw [hfm]
    rfl
  have hnull : allNullSeries devs = true := by
    unfold allNullSeries
    rw [hfm]
    rfl
  have hrec : largestShockEntity c devs cals =
      ({ country := c, largest_crop_shock := none, year_of_shock := none },
       [LogMsg.noCalorieDecrease c]) := by
    unfold largestShockEntity
    rw [hloop]
    try dsimp only
    rw [hmin, hnull]
    simp
  refine ⟨hrec, ?_⟩
  have hstep : calculate_largest_shock ((c, devs) :: rest) calT =
      (match calT.find? (fun p => p.1 == c) with
       | none => ((calculate_largest_shock rest calT).1,
                  LogMsg.notInCalories c :: (calculate_largest_shock rest calT).2)
       | some pr =>
         ((largestShockEntity c devs pr.2).1 :: (calculate_largest_shock rest calT).1,
          (largestShockEntity c devs pr.2).2 ++ (calculate_largest_shock rest calT).2)) := rfl
  rw [hstep, hfind]
  try dsimp only
  rw [hrec]
  simp

set_option maxRecDepth 20000 in
/-- C8 counterexample: an entity with an entirely missing deviation series but
a raw calorie decrease (100 → 90 into 1962) gets year_of_shock = 1962, NOT the
null year the claim requires: the missing deviation at 1962 is accepted as a
"valid" shock because `NaN >= 0` is false and the calorie check passes. -/
theorem C8_counterexample :
    (∀ p ∈ [((1961 : Nat), (none : Option ℚ)), (1962, none)], p.2 = none) ∧
    (largestShockEntity "X" [((1961 : Nat), (none : Option ℚ)), (1962, none)]
        [((1961 : Nat), some (100 : ℚ)), (1962, some 90)]).1.year_of_shock = some 1962 ∧
    (largestShockEntity "X" [((1961 : Nat), (none : Option ℚ)), (1962, none)]
        [((1961 : Nat), some (100 : ℚ)), (1962, some 90)]).1.year_of_shock ≠ none :=
  ⟨by decide, of_decide_eq_true (by with_unfolding_all rfl),
   of_decide_eq_true (by with_unfolding_all rfl)⟩

set_option maxRecDepth 20000 in
/-- Witness for C8 at a concrete input: entity X has an all-missing deviation
series and non-decreasing calories, so its record is null/null with the note,
and the batch continues with the rest of the table. -/
theorem C8_witness :
    ([((1961 : Nat), (none : Option ℚ)), (1962, none)].map Prod.fst =
       [((1961 : Nat), some (100 : ℚ)), (1962, some 100)].map Prod.fst ∧
     ([("X", [((1961 : Nat), some (100 : ℚ)), (1962, some 100)])] :
        List (String × List (Nat × Option ℚ))).find? (fun p => p.1 == "X") =
       some ("X", [((1961 : Nat), some (100 : ℚ)), (1962, some 100)]) ∧
     (∀ p ∈ [((1961 : Nat), (none : Option ℚ)), (1962, none)], p.2 = none) ∧
     (∀ i : Nat, optLt
        ((([((1961 : Nat), some (100 : ℚ)), (1962, some 100)].map Prod.snd)).getD (i + 1) none)
        ((([((1961 : Nat), some (100 : ℚ)), (1962, some 100)].map Prod.snd)).getD i none) =
        false)) ∧
    (largestShockEntity "X" [((1961 : Nat), (none : Option ℚ)), (1962, none)]
        [((1961 : Nat), some (100 : ℚ)), (1962, some 100)] =
      ({ country := "X", largest_crop_shock := none, year_of_shock := none },
       [LogMsg.noCalorieDecrease "X"]) ∧
     calculate_largest_shock
        [("X", [((1961 : Nat), (none : Option ℚ)), (1962, none)]),
         ("Y", [((1961 : Nat), some (-1 : ℚ)), (1962, some 1)])]
        [("X", [((1961 : Nat), some (100 : ℚ)), (1962, some 100)])] =
      (({ country := "X", largest_crop_shock := none, year_of_shock := none } : ShockRecord) ::
         (calculate_largest_shock
           [("Y", [((1961 : Nat), some (-1 : ℚ)), (1962, some 1)])]
           [("X", [((1961 : Nat), some (100 : ℚ)), (1962, some 100)])]).1,
       LogMsg.noCalorieDecrease "X" ::
         (calculate_largest_shock
           [("Y", [((1961 : Nat), some (-1 : ℚ)), (1962, some 1)])]
           [("X", [((1961 : Nat), some (100 : ℚ)), (1962, some 100)])]).2)) :=
  ⟨⟨by decide, by decide, by decide,
    fun i => by
      cases i with
      | zero => exact of_decide_eq_true (by with_unfolding_all rfl)
      | succ n => rfl⟩,
   C8_all_missing_null_record "X"
     [((1961 : Nat), (none : Option ℚ)), (1962, none)]
     [((1961 : Nat), some (100 : ℚ)), (1962, some 100)]
     [("Y", [((1961 : Nat), some (-1 : ℚ)), (1962, some 1)])]
     [("X", [((1961 : Nat), some (100 : ℚ)), (1962, some 100)])]
     (by decide) (by decide) (by decide)
     (fun i => by
       cases i with
       | zero => exact of_decide_eq_true (by with_unfolding_all rfl)
       | succ n => rfl)⟩

end FoodShocks
